import Mathlib

/-!
Shallow embedding of the RAG chatbot (sitemap URL search, web-scraper
cache/batching, tool dispatch, OpenRouter retry loop and the chat
orchestrator), with theorems checking the natural-language specification
against the code.

Conventions of the embedding:
* JavaScript strings are Lean `String`s; `String.prototype.includes` is the
  substring test `jsIncludes`, `toLowerCase` is the ASCII `jsToLower`,
  `split` a character-based splitter.  All concrete inputs used in proofs
  are ASCII, where these agree with the ECMAScript operations.
* Effects (HTTP, clocks) are oracles passed as function arguments; the
  instrumented results additionally return the list of issued network
  requests and the backoff delays the code would sleep, so that claims
  about "no new network call" or "waits 1000 ms" are statable.
* Thrown JS exceptions are `Except.error` with the thrown message; where a
  claim does not depend on the exact `TypeError` text a fixed stand-in
  message is used.
-/

/-- The space character, the separator of `query.split(' ')`. -/
def spaceChar : Char := ' '

/-- Embedding of ECMAScript `String.prototype.toLowerCase` restricted to
ASCII (`Char.toLower` lower-cases exactly the ASCII letters). -/
def jsToLower (s : String) : String := String.mk (s.data.map Char.toLower)

/-- Decides whether `pre` is a prefix of the second list (character lists). -/
def isPrefixCh : List Char → List Char → Bool
  | [], _ => true
  | _ :: _, [] => false
  | a :: as, b :: bs => a == b && isPrefixCh as bs

/-- Decides whether `needle` occurs as a contiguous substring of `hay`. -/
def isSubstrCh (needle : List Char) (hay : List Char) : Bool :=
  match hay with
  | [] => needle.isEmpty
  | _ :: t => isPrefixCh needle hay || isSubstrCh needle t

/-- Embedding of ECMAScript `s.includes(sub)` (substring containment). -/
def jsIncludes (s : String) (sub : String) : Bool := isSubstrCh sub.data s.data

/-- Splits a character list at every character satisfying `p`, keeping empty
chunks, matching ECMAScript `String.prototype.split` with a one-character
separator: the result is never empty and `""` splits to `[""]`. -/
def splitOnPred (p : Char → Bool) : List Char → List (List Char)
  | [] => [[]]
  | x :: xs =>
    let r := splitOnPred p xs
    if p x then [] :: r
    else
      match r with
      | [] => [[x]]
      | h :: t => (x :: h) :: t

/-- Embedding of the JS `query.split(' ')` used by `searchUrls`. -/
def jsSplitSpace (s : String) : List (List Char) :=
  splitOnPred (fun c => c == spaceChar) s.data

/-- A sitemap URL record as built by `SitemapParser.parseSitemapContent`:
`{url, path, category, keywords, title}`.  The category is one of the strings
`"page"`, `"blog"`, `"product"`, `"general"` in the source, but nothing in
the search logic depends on that, so it is an arbitrary string here. -/
structure UrlRecord where
  url : String
  path : String
  category : String
  keywords : String
  title : String
deriving Repr, DecidableEq

/-- A record together with its search score, the JS spread
`{...urlData, score}` in `searchUrls`. -/
structure ScoredUrlRecord where
  url : String
  path : String
  category : String
  keywords : String
  title : String
  score : Nat
deriving Repr, DecidableEq

/-- The spread `{...urlData, score}`. -/
def scoreUrl (u : UrlRecord) (s : Nat) : ScoredUrlRecord :=
  ⟨u.url, u.path, u.category, u.keywords, u.title, s⟩

/-- The score `searchUrls` computes for one record: translation of the body
of the `map` in `SitemapParser.searchUrls` (sitemapParser.js).
`+100` for the full lower-cased query as substring of `keywords`, `+10` per
query token of length `> 2` (split on the space character) occurring in
`keywords`, `+20` for the product-category bonus, `+20` for the
blog-category bonus. -/
def scoreRecord (query : String) (u : UrlRecord) : Nat :=
  let queryLower := jsToLower query
  let queryWords := (jsSplitSpace queryLower).filter (fun w => 2 < w.length)
  let phraseBonus := if jsIncludes u.keywords queryLower then 100 else 0
  let wordBonus := 10 * queryWords.countP (fun w => isSubstrCh w u.keywords.data)
  let productBonus :=
    if (jsIncludes queryLower "product" || jsIncludes queryLower "pricing"
        || jsIncludes queryLower "buy") && u.category == "product" then 20 else 0
  let blogBonus :=
    if (jsIncludes queryLower "blog" || jsIncludes queryLower "article"
        || jsIncludes queryLower "how to") && u.category == "blog" then 20 else 0
  phraseBonus + wordBonus + productBonus + blogBonus

/-- The sort order of `searchUrls`: the JS comparator
`(a, b) => b.score - a.score`, i.e. descending score. -/
def byScoreDesc : ScoredUrlRecord → ScoredUrlRecord → Prop :=
  fun a b => b.score ≤ a.score

instance : DecidableRel byScoreDesc := fun a b => Nat.decLe b.score a.score

instance : IsTotal ScoredUrlRecord byScoreDesc :=
  ⟨fun a b => Nat.le_total b.score a.score⟩

instance : IsTrans ScoredUrlRecord byScoreDesc :=
  ⟨fun _ _ _ hab hbc => Nat.le_trans hbc hab⟩

/-- Translation of `SitemapParser.searchUrls`: score every record, keep
scores `> 0`, sort descending by score, take the first `limit`.
ECMAScript `Array.prototype.sort` is required to be stable, and with the
comparator `b.score - a.score` it yields exactly the stable descending
order; `List.insertionSort` is that stable sort. -/
def searchUrls (urls : List UrlRecord) (query : String) (limit : Nat) :
    List ScoredUrlRecord :=
  let scored := urls.map (fun u => scoreUrl u (scoreRecord query u))
  (List.insertionSort byScoreDesc
      (scored.filter (fun item => decide (0 < item.score)))).take limit

/-- A two-record sitemap index used as concrete input in witnesses. -/
def exampleIndex : List UrlRecord :=
  [⟨"https://www.vsf.technology/pricing", "pricing", "product", "pricing",
    "Pricing"⟩,
   ⟨"https://www.vsf.technology/blog/tips", "blog/tips", "blog", "blog tips",
    "Blog Tips"⟩]

/-- The scored record the query "pricing" ranks first on `exampleIndex`:
100 (phrase) + 10 (token) + 20 (product bonus). -/
def examplePricingHit : ScoredUrlRecord :=
  ⟨"https://www.vsf.technology/pricing", "pricing", "product", "pricing",
    "Pricing", 130⟩

/-- Splits on every whitespace character (the tokenisation the spec words
describe). -/
def splitWhitespace (s : String) : List (List Char) :=
  splitOnPred Char.isWhitespace s.data

/-- Modelled from the spec: the scoring formula exactly as §4.1 words it —
lower-case the query, "split into whitespace-delimited tokens of length
> 2", then +100 for a full-phrase substring match, +10 per matching token,
+20 per applicable category bonus; this differs from the code only in the
tokenisation. -/
def scoreRecordSpec (query : String) (u : UrlRecord) : Nat :=
  let ql := jsToLower query
  let tokens := (splitWhitespace ql).filter (fun w => 2 < w.length)
  (if jsIncludes u.keywords ql then 100 else 0)
    + 10 * ((tokens.filter (fun w => isSubstrCh w u.keywords.data)).length)
    + (if (jsIncludes ql "product" || jsIncludes ql "pricing"
          || jsIncludes ql "buy") && u.category == "product" then 20 else 0)
    + (if (jsIncludes ql "blog" || jsIncludes ql "article"
          || jsIncludes ql "how to") && u.category == "blog" then 20 else 0)

/-- Modelled from the spec as amended by the counterexample: identical to
`scoreRecordSpec` except that tokenisation splits on the space character
only, which is what `query.split(' ')` does. -/
def scoreRecordSpecAmended (query : String) (u : UrlRecord) : Nat :=
  let ql := jsToLower query
  let tokens := (splitOnPred (fun c => c == spaceChar) ql.data).filter
    (fun w => 2 < w.length)
  (if jsIncludes u.keywords ql then 100 else 0)
    + 10 * ((tokens.filter (fun w => isSubstrCh w u.keywords.data)).length)
    + (if (jsIncludes ql "product" || jsIncludes ql "pricing"
          || jsIncludes ql "buy") && u.category == "product" then 20 else 0)
    + (if (jsIncludes ql "blog" || jsIncludes ql "article"
          || jsIncludes ql "how to") && u.category == "blog" then 20 else 0)

/-- A record whose keyword text contains a tab, separating the code's
space-only tokenisation from the spec's whitespace tokenisation. -/
def tabRecord : UrlRecord :=
  ⟨"https://www.vsf.technology/x", "x", "page", "ab\tcd", "X"⟩

/-- The record `WebScraper.fetchPageContent` builds, caches and returns:
`{url, title, description, content (truncated to 3000 chars), fetchedAt}`. -/
structure PageContent where
  url : String
  title : String
  description : String
  content : String
  fetchedAt : String
deriving Repr, DecidableEq

/-- Abstraction of one successful `axios.get` + cheerio extraction: the
(trimmed) title, the (trimmed) meta description, the cleaned main text before
truncation, and the `new Date().toISOString()` timestamp.  The network and
the HTML parsing are outside the embedded code, so they enter as an oracle
`String → Except String FetchedDoc`; an `error` is any network or parse
failure with the underlying `error.message`. -/
structure FetchedDoc where
  title : String
  description : String
  content : String
  fetchedAt : String
deriving Repr, DecidableEq

/-- The scraper's `this.cache`, a `Map` keyed by exact URL string, as an
insertion-ordered association list. -/
abbrev ScrapeCache := List (String × PageContent)

/-- `Map.prototype.get`: the first (unique) entry with this key. -/
def cacheGet : ScrapeCache → String → Option PageContent
  | [], _ => none
  | e :: t, url => if e.1 == url then some e.2 else cacheGet t url

/-- `Map.prototype.has`. -/
def cacheHas : ScrapeCache → String → Bool
  | [], _ => false
  | e :: t, url => e.1 == url || cacheHas t url

/-- `Map.prototype.set`: replaces an existing entry in place, otherwise
appends at the end (`Map` preserves insertion order). -/
def cacheSet (cache : ScrapeCache) (url : String) (pc : PageContent) :
    ScrapeCache :=
  if cacheHas cache url then
    cache.map (fun p => if p.1 == url then (url, pc) else p)
  else cache ++ [(url, pc)]

/-- The `result` object assembled in `fetchPageContent`, with the
3000-character truncation of the content. -/
def mkPageContent (url : String) (d : FetchedDoc) : PageContent :=
  ⟨url, d.title, d.description, d.content.take 3000, d.fetchedAt⟩

/-- Translation of `WebScraper.fetchPageContent` (webScraper.js): return the
cached record on a cache hit, otherwise fetch, cache the result, and return
it; on failure throw `Failed to fetch content from <url>: <cause>` and cache
nothing.  The third component records the network requests issued. -/
def fetchPageContent (net : String → Except String FetchedDoc)
    (cache : ScrapeCache) (url : String) :
    Except String PageContent × ScrapeCache × List String :=
  match cacheGet cache url with
  | some v => (.ok v, cache, [])
  | none =>
    match net url with
    | .ok d =>
      let result := mkPageContent url d
      (.ok result, cacheSet cache url result, [url])
    | .error msg =>
      (.error ("Failed to fetch content from " ++ url ++ ": " ++ msg),
        cache, [url])

/-- A network oracle that always succeeds, used by witnesses. -/
def netOkEx : String → Except String FetchedDoc :=
  fun _ => .ok ⟨"Example Title", "Example description", "Example body text",
    "2024-01-01T00:00:00.000Z"⟩

/-- A network oracle that always fails, used by witnesses. -/
def netFailEx : String → Except String FetchedDoc :=
  fun _ => .error "ETIMEDOUT"

/-- The page `netOkEx` produces for the example pricing URL. -/
def pageEx : PageContent :=
  mkPageContent "https://www.vsf.technology/pricing"
    ⟨"Example Title", "Example description", "Example body text",
      "2024-01-01T00:00:00.000Z"⟩

/-- One batch member's outcome: the JS
`fetchPageContent(url).catch(err => ({url, error: err.message}))` — either a
page record or the in-place error record `{url, error}`. -/
inductive FetchResult where
  | page (pc : PageContent)
  | failure (url : String) (error : String)
deriving Repr, DecidableEq

/-- The URL a `FetchResult` is about. -/
def resultUrl : FetchResult → String
  | .page pc => pc.url
  | .failure u _ => u

/-- A single caught fetch inside a batch. -/
def fetchCaught (net : String → Except String FetchedDoc)
    (cache : ScrapeCache) (url : String) :
    FetchResult × ScrapeCache × List String :=
  let r := fetchPageContent net cache url
  (match r.1 with
    | .ok pc => FetchResult.page pc
    | .error m => FetchResult.failure url m, r.2.1, r.2.2)

/-- The members of one batch, with the scraper's shared cache threaded
through.  (In the source a batch's members run concurrently under
`Promise.all`; only the cache interleaving, not the result list, can depend
on that, and no claim here observes it.) -/
def fetchSeq (net : String → Except String FetchedDoc) :
    List String → ScrapeCache → List FetchResult × ScrapeCache × List String
  | [], cache => ([], cache, [])
  | u :: us, cache =>
    let r := fetchCaught net cache u
    let rest := fetchSeq net us r.2.1
    (r.1 :: rest.1, rest.2.1, r.2.2 ++ rest.2.2)

/-- Translation of `WebScraper.fetchMultiplePages` (webScraper.js): process
the URLs in batches of `maxConcurrent` (the `for (let i = 0; ...; i +=
maxConcurrent)` loop with `slice(i, i + maxConcurrent)`), concatenating the
batch results in order.  The source diverges for `maxConcurrent = 0` (the
loop never advances); the `max _ 1` guard makes the model total — every
caller uses the default 3. -/
def fetchMultiplePages (net : String → Except String FetchedDoc) :
    List String → ScrapeCache → Nat →
      List FetchResult × ScrapeCache × List String
  | [], cache, _ => ([], cache, [])
  | u :: us, cache, mc =>
    let mcg := max mc 1
    let first := fetchSeq net ((u :: us).take mcg) cache
    let rest := fetchMultiplePages net ((u :: us).drop mcg) first.2.1 mc
    (first.1 ++ rest.1, rest.2.1, first.2.2 ++ rest.2.2)
termination_by urls _ _ => urls.length
decreasing_by
  have h1 : 1 ≤ max mc 1 := Nat.le_max_right mc 1
  simp only [List.length_drop, List.length_cons]
  omega

/-- The cache invariant: every entry's record is about the entry's key.  It
holds of the empty starting cache and is preserved by every fetch. -/
def CacheWF (cache : ScrapeCache) : Prop := ∀ p ∈ cache, p.2.url = p.1

/-- A network oracle that fails exactly on the blog URL. -/
def netMixedEx : String → Except String FetchedDoc :=
  fun u =>
    if u == "https://www.vsf.technology/blog/tips" then .error "404"
    else .ok ⟨"Example Title", "Example description", "Example body text",
      "2024-01-01T00:00:00.000Z"⟩

/-- The argument object of a tool call after `JSON.parse`: each known
parameter may be absent (JS `undefined`). -/
structure ToolArgs where
  query : Option String := none
  limit : Option Nat := none
  urls : Option (List String) := none
deriving Repr, DecidableEq

/-- What `executeToolCall` returns to the conversation loop: a search result
list, a fetch result list, or the structured `{error: message}` payload. -/
inductive ToolPayload where
  | searchResults (rs : List ScoredUrlRecord)
  | pages (rs : List FetchResult)
  | errorPayload (msg : String)
deriving Repr, DecidableEq

/-- A fixed stand-in for the `TypeError` message produced when a required
argument is absent (`args.query` without a string makes
`query.toLowerCase()` throw; `args.urls` without an array makes
`urls.slice` throw).  No claim depends on the exact text. -/
def undefinedAccessMsg : String := "Cannot read properties of undefined"

/-- The `try` block of `RAGChatbot.executeToolCall`: dispatch on the tool
name; `search_website_urls` runs the sitemap search with `args.limit || 5`
(JS `||`: 0 is falsy); `fetch_webpage_content` caps the URLs to the first 3
and runs the batched fetch; any other name throws `Unknown tool: <name>`. -/
def executeToolCallTry (siteUrls : List UrlRecord)
    (net : String → Except String FetchedDoc) (cache : ScrapeCache)
    (toolName : String) (args : ToolArgs) :
    Except String (ToolPayload × ScrapeCache) :=
  if toolName == "search_website_urls" then
    match args.query with
    | none => .error undefinedAccessMsg
    | some q =>
      let lim := match args.limit with
        | some l => if l == 0 then 5 else l
        | none => 5
      .ok (.searchResults (searchUrls siteUrls q lim), cache)
  else if toolName == "fetch_webpage_content" then
    match args.urls with
    | none => .error undefinedAccessMsg
    | some us =>
      let limitedUrls := us.take 3
      let r := fetchMultiplePages net limitedUrls cache 3
      .ok (.pages r.1, r.2.1)
  else .error ("Unknown tool: " ++ toolName)

/-- Translation of `RAGChatbot.executeToolCall`: the `try`/`catch` — any
thrown error is caught and returned as the `{error: message}` payload, so
the function itself never throws. -/
def executeToolCall (siteUrls : List UrlRecord)
    (net : String → Except String FetchedDoc) (cache : ScrapeCache)
    (toolName : String) (args : ToolArgs) : ToolPayload × ScrapeCache :=
  match executeToolCallTry siteUrls net cache toolName args with
  | .ok pc => pc
  | .error m => (.errorPayload m, cache)

/-- One tool invocation request inside an assistant message:
`{id, function: {name, arguments}}`.  `arguments` is the JSON-encoded string
after `JSON.parse`: `some args` when it parses to an argument object, `none`
when `JSON.parse` would throw. -/
structure ToolCallReq where
  id : String
  name : String
  arguments : Option ToolArgs
deriving Repr, DecidableEq

/-- A conversation message.  Fields the JS objects may lack are `Option`s
(JS `undefined`). -/
structure ChatMessage where
  role : String
  content : Option String := none
  tool_calls : Option (List ToolCallReq) := none
  tool_call_id : Option String := none
  name : Option String := none
deriving Repr, DecidableEq

/-- One element of the response's `choices` array; `message` may be absent. -/
structure Choice where
  message : Option ChatMessage
deriving Repr, DecidableEq

/-- The response body `response.data`; `choices` may be absent. -/
structure ApiData where
  choices : Option (List Choice)
deriving Repr, DecidableEq

/-- What one `axios.post` attempt observes: either a resolved response with
its HTTP status and (possibly malformed) body, or a thrown transport error
(timeout `ECONNABORTED`/`ETIMEDOUT`, connection failure, 5xx).  With the
code's `validateStatus`, statuses below 500 resolve rather than throw. -/
inductive ApiOutcome where
  | response (status : Nat) (data : Option ApiData)
  | netError (msg : String)
deriving Repr, DecidableEq

/-- The `try` block of one attempt in `RAGChatbot.callOpenRouterAPI`: a
thrown transport error propagates; a resolved response throws
`API returned status <s>` unless the status is 200, then throws
`Invalid response format from API` unless `data`, `data.choices` and
`data.choices[0]` all exist — and otherwise returns `response.data`.
Note the code never checks `choices[0].message`. -/
def attemptResult (o : ApiOutcome) : Except String ApiData :=
  match o with
  | .netError m => .error m
  | .response status data =>
    if status != 200 then
      .error ("API returned status " ++ toString status)
    else
      match data with
      | none => .error "Invalid response format from API"
      | some d =>
        match d.choices with
        | none => .error "Invalid response format from API"
        | some [] => .error "Invalid response format from API"
        | some (_ :: _) => .ok d

/-- The retry loop of `callOpenRouterAPI`, with `attempt` counting from 1 and
`rest` the number of attempts remaining after this one (so `attempt = retries`
exactly when `rest = 0`, the code's `isLastAttempt`).  Returns the result,
the number of the attempt on which the loop stopped, and the list of backoff
delays `Math.min(1000 * 2^(attempt-1), 5000)` slept between attempts. -/
def callGo (outcomes : Nat → ApiOutcome) :
    Nat → Nat → Except String ApiData × Nat × List Nat
  | attempt, rest =>
    match attemptResult (outcomes attempt) with
    | .ok d => (.ok d, attempt, [])
    | .error e =>
      match rest with
      | 0 => (.error e, attempt, [])
      | r + 1 =>
        let wait := min (1000 * 2 ^ (attempt - 1)) 5000
        let next := callGo outcomes (attempt + 1) r
        (next.1, next.2.1, wait :: next.2.2)

/-- Translation of `RAGChatbot.callOpenRouterAPI(messages, retries = 3)`:
run the attempt loop `for (let attempt = 1; attempt <= retries; ...)`.
`outcomes` is the network oracle giving each attempt's result (the messages
payload does not influence the embedded control flow).  The JS function is
only ever called with the default `retries = 3`. -/
def callOpenRouterAPI (outcomes : Nat → ApiOutcome) (retries : Nat) :
    Except String ApiData × Nat × List Nat :=
  callGo outcomes 1 (retries - 1)

/-- Whether one attempt fails (timeout, connection error, non-success
status, or malformed response shape). -/
def attemptFails (o : ApiOutcome) : Bool :=
  match attemptResult o with
  | .ok _ => false
  | .error _ => true

/-- A 200 response body whose `choices[0]` exists but has no `message`. -/
def missingMessageData : ApiData := ⟨some [⟨none⟩]⟩

/-- The fixed user-facing message of `chat`'s turn-level `catch` handler. -/
def errorMessage : String :=
  "I apologize, but I\x27m having trouble processing your request right now. Please try again in a moment."

/-- The fixed user-facing message returned when the 10-iteration ceiling is
reached without a plain answer. -/
def maxIterationMessage : String :=
  "I apologize, but I\x27m taking too long to process your request. Please try asking in a different way."

/-- The default system prompt of `RAGChatbot.chat` (used when no override is
passed). -/
def defaultSystemPrompt : String :=
  "You are a helpful assistant for VSF Technology, a web hosting and domain services company. \nYour job is to answer questions about our services, products, and help users find information on our website.\n\nWhen a user asks a question:\n1. First, use the search_website_urls function to find relevant pages\n2. Then, use the fetch_webpage_content function to get detailed information from those pages\n3. Finally, provide a comprehensive answer based on the fetched content\n\nBe friendly, professional, and always provide accurate information based on the website content."

/-- Stand-in for `JSON.stringify(toolResult)`; the claims never inspect the
serialised text, only that a tool message carrying it is appended. -/
def serializeToolPayload (p : ToolPayload) : String := reprStr p

/-- The `for (const toolCall of assistantMessage.tool_calls)` loop: parse
each call's arguments (`JSON.parse` throwing aborts the turn), execute it,
and build its correlated `role: "tool"` message.  Returns the tool messages
(or the thrown error) together with the scraper cache, whose updates from
already-executed calls persist even when a later call throws. -/
def runToolCalls (siteUrls : List UrlRecord)
    (net : String → Except String FetchedDoc) :
    List ToolCallReq → ScrapeCache →
      Except String (List ChatMessage) × ScrapeCache
  | [], cache => (.ok [], cache)
  | tc :: rest, cache =>
    match tc.arguments with
    | none => (.error "Unexpected token in JSON", cache)
    | some args =>
      let r := executeToolCall siteUrls net cache tc.name args
      let toolMsg : ChatMessage :=
        { role := "tool", content := some (serializeToolPayload r.1),
          tool_call_id := some tc.id, name := some tc.name }
      let rest' := runToolCalls siteUrls net rest r.2
      (match rest'.1 with
        | .ok ms => .ok (toolMsg :: ms)
        | .error e => .error e, rest'.2)

/-- How one loop iteration of `chat` goes, as decided by the assistant
message: `fail` is every path that ends in the `catch` handler (the model
call failed after its retries, or `choices[0].message` is absent so reading
`.tool_calls` of `undefined` throws); `tools` is a nonempty `tool_calls`
array; `final` is a plain answer. -/
inductive IterClass where
  | fail
  | tools (am : ChatMessage) (tcs : List ToolCallReq)
  | final (am : ChatMessage)

/-- Classify the validated response body the way `chat` consumes it. -/
def classifyData (d : ApiData) : IterClass :=
  match d.choices with
  | some (c :: _) =>
    match c.message with
    | some am =>
      match am.tool_calls with
      | some (tc :: tcs) => .tools am (tc :: tcs)
      | _ => .final am
    | none => .fail
  | _ => .fail

/-- Classify one full `callOpenRouterAPI` invocation (3 attempts). -/
def classifyIter (oc : Nat → ApiOutcome) : IterClass :=
  match (callOpenRouterAPI oc 3).1 with
  | .error _ => .fail
  | .ok d => classifyData d

/-- The `while (currentIteration < maxIterations)` loop of `RAGChatbot.chat`.
`history` is the stored `this.conversationHistory` at turn start — it is only
written in the plain-answer branch; `messages` is the turn-local outgoing
array; `fuel` counts the remaining iterations (10 at entry), and running out
returns the fixed too-long message; the `catch` branch returns the fixed
trouble-processing message with the stored history untouched.  `outcomes`
gives each iteration's network oracle for the model call. -/
def chatLoop (siteUrls : List UrlRecord)
    (net : String → Except String FetchedDoc)
    (outcomes : Nat → Nat → ApiOutcome) (userMessage : String)
    (history : List ChatMessage) :
    List ChatMessage → ScrapeCache → Nat → Nat →
      String × List ChatMessage × ScrapeCache
  | _messages, cache, _iter, 0 => (maxIterationMessage, history, cache)
  | messages, cache, iter, fuel + 1 =>
    match classifyIter (outcomes iter) with
    | .fail => (errorMessage, history, cache)
    | .tools am tcs =>
      let r := runToolCalls siteUrls net tcs cache
      (match r.1 with
        | .error _ => (errorMessage, history, r.2)
        | .ok toolMsgs =>
          chatLoop siteUrls net outcomes userMessage history
            ((messages ++ [am]) ++ toolMsgs) r.2 (iter + 1) fuel)
    | .final am =>
      let finalResponse := am.content.getD ""
      let newHistory := history ++
        [{ role := "user", content := some userMessage },
         { role := "assistant", content := am.content }]
      let trimmed := if 10 < newHistory.length then
          newHistory.drop (newHistory.length - 10) else newHistory
      (finalResponse, trimmed, cache)

/-- Translation of `RAGChatbot.chat(userMessage, systemPrompt = null)`:
build `[system, ...history, user]` and run the iteration loop with ceiling
10.  Returns the reply text, the stored conversation history after the turn,
and the scraper cache after the turn. -/
def chat (siteUrls : List UrlRecord)
    (net : String → Except String FetchedDoc)
    (outcomes : Nat → Nat → ApiOutcome) (history : List ChatMessage)
    (cache : ScrapeCache) (userMessage : String)
    (systemPrompt : Option String) :
    String × List ChatMessage × ScrapeCache :=
  let messages : List ChatMessage :=
    { role := "system", content := some (systemPrompt.getD defaultSystemPrompt) }
      :: history ++ [{ role := "user", content := some userMessage }]
  chatLoop siteUrls net outcomes userMessage history messages cache 0 10

/-- One iteration's model call succeeds and requests well-formed tool
invocations: a nonempty `tool_calls` array whose arguments all parse. -/
def iterToolOk (oc : Nat → ApiOutcome) : Bool :=
  match classifyIter oc with
  | .tools _ tcs => tcs.all (fun t => t.arguments.isSome)
  | _ => false

/-- One iteration's model call fails after exhausting its retries. -/
def iterFails (oc : Nat → ApiOutcome) : Bool :=
  match (callOpenRouterAPI oc 3).1 with
  | .ok _ => false
  | .error _ => true

/-- A model that requests the same search tool call on every iteration, used
by witnesses. -/
def toolLoopOutcomes : Nat → Nat → ApiOutcome :=
  fun _ _ => ApiOutcome.response 200 (some ⟨some [⟨some
    { role := "assistant",
      tool_calls := some [⟨"call_1", "search_website_urls",
        some { query := some "pricing" }⟩] }⟩]⟩)

/-- A model call that always fails at the transport layer, used by
witnesses. -/
def failingOutcomes : Nat → Nat → ApiOutcome :=
  fun _ _ => ApiOutcome.netError "connect ECONNREFUSED"

/-- Whether a resolved 200 response is missing `data`, `data.choices` or
`data.choices[0]` — exactly what the code's validation rejects. -/
def missingChoice (o : ApiOutcome) : Bool :=
  match o with
  | .response status data =>
    status == 200 &&
      (match data with
        | none => true
        | some d =>
          match d.choices with
          | none => true
          | some [] => true
          | some (_ :: _) => false)
  | .netError _ => false

/-- A response stream whose body never has `choices`, used by the witness. -/
def noChoicesOutcomes : Nat → ApiOutcome :=
  fun _ => ApiOutcome.response 200 (some ⟨none⟩)

/-- A model whose responses always carry `choices[0]` without `message`,
used by the witness. -/
def noMessageOutcomes : Nat → Nat → ApiOutcome :=
  fun _ _ => ApiOutcome.response 200 (some missingMessageData)

-- Basic facts about the string primitives.

theorem isSubstrCh_nil (hay : List Char) : isSubstrCh [] hay = true := by
  induction hay with
  | nil => rfl
  | cons h t ih => simp [isSubstrCh, isPrefixCh]

theorem jsToLower_empty : jsToLower "" = "" := rfl

theorem jsSplitSpace_empty : jsSplitSpace "" = [[]] := rfl

-- Stability of the sort used by `searchUrls`: equal-score records keep
-- their relative order, expressed through score-level filters.

theorem filter_orderedInsert (x : ScoredUrlRecord) (l : List ScoredUrlRecord)
    (s : Nat) :
    (List.orderedInsert byScoreDesc x l).filter (fun y => y.score == s) =
      if x.score == s then x :: l.filter (fun y => y.score == s)
      else l.filter (fun y => y.score == s) := by
  induction l with
  | nil =>
    by_cases hx : x.score == s <;> simp [List.orderedInsert, List.filter, hx]
  | cons b t ih =>
    by_cases hr : byScoreDesc x b
    · by_cases hx : x.score == s <;>
        simp [List.orderedInsert, hr, List.filter_cons, hx]
    · have hlt : x.score < b.score := Nat.lt_of_not_le hr
      simp only [List.orderedInsert, if_neg hr, List.filter_cons]
      by_cases hb : (b.score == s)
      · have hbs : b.score = s := by simpa using hb
        have hx : (x.score == s) = false := by
          have : x.score ≠ s := by omega
          exact beq_false_of_ne this
        simp [hb, ih, hx]
      · simp [hb, ih]

theorem filter_insertionSort (s : Nat) (l : List ScoredUrlRecord) :
    (List.insertionSort byScoreDesc l).filter (fun y => y.score == s) =
      l.filter (fun y => y.score == s) := by
  induction l with
  | nil => rfl
  | cons a t ih =>
    simp only [List.insertionSort, filter_orderedInsert, ih, List.filter_cons]

theorem pairwise_of_total_const {α : Type} (R : α → α → Prop)
    (h : ∀ a b, R a b) (l : List α) : l.Pairwise R := by
  induction l with
  | nil => exact List.Pairwise.nil
  | cons a t ih => exact List.Pairwise.cons (fun b _ => h a b) ih

theorem score_pos_of_mem_searchUrls (urls : List UrlRecord) (query : String)
    (limit : Nat) (r : ScoredUrlRecord)
    (h : r ∈ searchUrls urls query limit) : 0 < r.score := by
  unfold searchUrls at h
  have h1 := List.Sublist.mem h (List.take_sublist _ _)
  have h2 := (List.perm_insertionSort byScoreDesc _).mem_iff.mp h1
  exact of_decide_eq_true (List.mem_filter.mp h2).2

/-- C4: for every query string and every limit, `searchUrls` returns at most
`limit` records, every returned record has score `> 0`, the result is sorted
in descending score order, and records of equal score appear in their
original index order (stability, stated as: for each score value, the
returned records with that score form an order-preserving subsequence of the
scored input list). -/
theorem searchUrls_contract (urls : List UrlRecord) (query : String)
    (limit : Nat) :
    (searchUrls urls query limit).length ≤ limit ∧
    (∀ r ∈ searchUrls urls query limit, 0 < r.score) ∧
    List.Sorted byScoreDesc (searchUrls urls query limit) ∧
    (∀ s : Nat,
      ((searchUrls urls query limit).filter (fun r => r.score == s)).Sublist
        ((urls.map (fun u => scoreUrl u (scoreRecord query u))).filter
          (fun r => r.score == s))) := by
  refine ⟨?_, ?_, ?_, ?_⟩
  · unfold searchUrls
    simp
  · exact fun r hr => score_pos_of_mem_searchUrls urls query limit r hr
  · unfold searchUrls
    exact List.Pairwise.sublist (List.take_sublist _ _)
      (List.sorted_insertionSort byScoreDesc _)
  · intro s
    have h1 : ((searchUrls urls query limit).filter
          (fun r => r.score == s)).Sublist
        ((List.insertionSort byScoreDesc
            ((urls.map (fun u => scoreUrl u (scoreRecord query u))).filter
              (fun item => decide (0 < item.score)))).filter
          (fun r => r.score == s)) :=
      List.Sublist.filter _ (List.take_sublist _ _)
    rw [filter_insertionSort] at h1
    exact h1.trans (List.Sublist.filter _ (List.filter_sublist _))

/-- Witness for C4 at the concrete query "pricing" on `exampleIndex`. -/
theorem searchUrls_contract_witness :
    (searchUrls exampleIndex "pricing" 5).length ≤ 5 ∧
    0 < examplePricingHit.score ∧
    List.Sorted byScoreDesc (searchUrls exampleIndex "pricing" 5) ∧
    ((searchUrls exampleIndex "pricing" 5).filter
        (fun r => r.score == 130)).Sublist
      ((exampleIndex.map (fun u => scoreUrl u (scoreRecord "pricing" u))).filter
        (fun r => r.score == 130)) := by
  have h := searchUrls_contract exampleIndex "pricing" 5
  exact ⟨h.1, h.2.1 examplePricingHit (by decide), h.2.2.1, h.2.2.2 130⟩

theorem scoreRecord_empty (u : UrlRecord) : scoreRecord "" u = 100 := by
  have h1 : jsIncludes u.keywords "" = true := isSubstrCh_nil _
  have hp : jsIncludes "" "product" = false := by decide
  have hpr : jsIncludes "" "pricing" = false := by decide
  have hb : jsIncludes "" "buy" = false := by decide
  have hbl : jsIncludes "" "blog" = false := by decide
  have ha : jsIncludes "" "article" = false := by decide
  have hh : jsIncludes "" "how to" = false := by decide
  simp [scoreRecord, jsToLower_empty, h1, hp, hpr, hb, hbl, ha, hh,
    jsSplitSpace_empty]

/-- C10: with the empty-string query, every record receives the phrase bonus
(the empty string is a substring of every keyword text) and nothing else, so
for `limit ≥ 1` the result is exactly the first `min(limit, index size)`
records in original order, each scored exactly 100. -/
theorem searchUrls_empty_query (urls : List UrlRecord) (limit : Nat)
    (_hlim : 1 ≤ limit) :
    searchUrls urls "" limit = (urls.map (fun u => scoreUrl u 100)).take limit ∧
    (searchUrls urls "" limit).length = min limit urls.length ∧
    (∀ r ∈ searchUrls urls "" limit, r.score = 100) := by
  have hmap : urls.map (fun u => scoreUrl u (scoreRecord "" u)) =
      urls.map (fun u => scoreUrl u 100) :=
    List.map_congr_left (fun u _ => by rw [scoreRecord_empty])
  have hall : ∀ r ∈ urls.map (fun u => scoreUrl u 100), r.score = 100 := by
    intro r hr
    obtain ⟨u, _, rfl⟩ := List.mem_map.mp hr
    rfl
  have hfil : (urls.map (fun u => scoreUrl u 100)).filter
      (fun item => decide (0 < item.score)) = urls.map (fun u => scoreUrl u 100) := by
    refine List.filter_eq_self.mpr ?_
    intro a ha
    rw [hall a ha]
    decide
  have hsorted : List.Sorted byScoreDesc (urls.map (fun u => scoreUrl u 100)) := by
    refine List.pairwise_map.mpr ?_
    exact pairwise_of_total_const _ (fun a b => Nat.le_refl 100) urls
  have heq : searchUrls urls "" limit =
      (urls.map (fun u => scoreUrl u 100)).take limit := by
    simp only [searchUrls]
    rw [hmap, hfil, List.Sorted.insertionSort_eq hsorted]
  refine ⟨heq, ?_, ?_⟩
  · rw [heq]
    simp [List.length_take]
  · intro r hr
    rw [heq] at hr
    exact hall r (List.Sublist.mem hr (List.take_sublist _ _))

/-- Witness for C10 on the concrete two-record index with limit 1. -/
theorem searchUrls_empty_query_witness :
    searchUrls exampleIndex "" 1 =
      (exampleIndex.map (fun u => scoreUrl u 100)).take 1 ∧
    (searchUrls exampleIndex "" 1).length = min 1 exampleIndex.length ∧
    (∀ r ∈ searchUrls exampleIndex "" 1, r.score = 100) :=
  searchUrls_empty_query exampleIndex 1 (by decide)

/-- C5 counterexample: on the query `"ab\tcd"` (which contains a tab) the
code's score is 110 — `split(' ')` leaves the single 5-character token
`"ab\tcd"`, which matches — while the spec's whitespace tokenisation yields
only the length-2 tokens `"ab"`, `"cd"`, which are discarded, giving 100.
So the claimed formula does not compute the code's score. -/
theorem scoreRecord_whitespace_counterexample :
    scoreRecord "ab\tcd" tabRecord = 110 ∧
    scoreRecordSpec "ab\tcd" tabRecord = 100 ∧
    scoreRecord "ab\tcd" tabRecord ≠ scoreRecordSpec "ab\tcd" tabRecord := by
  decide

/-- C5 (amended): the code's score is computed exactly by the spec formula
with tokenisation amended to split on the space character only; and records
scoring 0 are excluded from every `searchUrls` result. -/
theorem scoreRecord_formula :
    (∀ (query : String) (u : UrlRecord),
      scoreRecord query u = scoreRecordSpecAmended query u) ∧
    (∀ (urls : List UrlRecord) (query : String) (limit : Nat)
      (r : ScoredUrlRecord), r ∈ searchUrls urls query limit → r.score ≠ 0) := by
  constructor
  · intro query u
    simp only [scoreRecord, scoreRecordSpecAmended, jsSplitSpace,
      List.countP_eq_length_filter]
  · intro urls query limit r hr
    exact Nat.pos_iff_ne_zero.mp (score_pos_of_mem_searchUrls urls query limit r hr)

/-- Witness for the amended C5 at the concrete query "pricing". -/
theorem scoreRecord_formula_witness :
    scoreRecord "pricing" tabRecord = scoreRecordSpecAmended "pricing" tabRecord ∧
    examplePricingHit.score ≠ 0 := by
  have h := scoreRecord_formula
  exact ⟨h.1 "pricing" tabRecord,
    h.2 exampleIndex "pricing" 5 examplePricingHit (by decide)⟩

-- Association-list facts about the cache.

theorem cacheHas_false_of_get_none (cache : ScrapeCache) (url : String)
    (h : cacheGet cache url = none) : cacheHas cache url = false := by
  induction cache with
  | nil => rfl
  | cons e t ih =>
    by_cases he : (e.1 == url)
    · simp [cacheGet, he] at h
    · simp [cacheGet, he] at h
      simp [cacheHas, he, ih h]

theorem cacheGet_append_some (cache : ScrapeCache) (e : String × PageContent)
    (k : String) (v : PageContent) (h : cacheGet cache k = some v) :
    cacheGet (cache ++ [e]) k = some v := by
  induction cache with
  | nil => simp [cacheGet] at h
  | cons a t ih =>
    by_cases ha : (a.1 == k)
    · simp [cacheGet, ha] at h ⊢
      exact h
    · simp [cacheGet, ha] at h ⊢
      exact ih h

theorem cacheGet_append_self (cache : ScrapeCache) (url : String)
    (pc : PageContent) (h : cacheGet cache url = none) :
    cacheGet (cache ++ [(url, pc)]) url = some pc := by
  induction cache with
  | nil => simp [cacheGet]
  | cons a t ih =>
    by_cases ha : (a.1 == url)
    · simp [cacheGet, ha] at h
    · simp [cacheGet, ha] at h ⊢
      exact ih h

theorem cacheSet_of_miss (cache : ScrapeCache) (url : String)
    (pc : PageContent) (h : cacheGet cache url = none) :
    cacheSet cache url pc = cache ++ [(url, pc)] := by
  unfold cacheSet
  rw [cacheHas_false_of_get_none cache url h]
  rfl

theorem mem_of_cacheGet_some (cache : ScrapeCache) (k : String)
    (v : PageContent) (h : cacheGet cache k = some v) : (k, v) ∈ cache := by
  induction cache with
  | nil => simp [cacheGet] at h
  | cons a t ih =>
    by_cases ha : (a.1 == k)
    · simp [cacheGet, ha] at h
      have hk : a.1 = k := by simpa using ha
      have hav : a = (k, v) := by
        obtain ⟨a1, a2⟩ := a
        simp only at hk h
        rw [hk, h]
      rw [hav]
      exact List.mem_cons_self _ _
    · simp [cacheGet, ha] at h
      exact List.mem_cons_of_mem a (ih h)

/-- C6: `fetchOne` is idempotent per URL.  (i) a cache hit returns the cached
record with no network request and no cache change; (ii) after a first
successful fetch, a second call with the same URL — under any later network
behaviour — returns a result identical to the first, issues no network
request, and leaves the cache unchanged; (iii) a fetch never evicts or
refreshes an existing cache entry. -/
theorem fetchPageContent_idempotent :
    (∀ net cache url v, cacheGet cache url = some v →
        fetchPageContent net cache url = (.ok v, cache, ([] : List String))) ∧
    (∀ net1 net2 cache url pc cache1 reqs,
        fetchPageContent net1 cache url = (.ok pc, cache1, reqs) →
        fetchPageContent net2 cache1 url = (.ok pc, cache1, ([] : List String))) ∧
    (∀ net cache url k v, cacheGet cache k = some v →
        cacheGet (fetchPageContent net cache url).2.1 k = some v) := by
  refine ⟨?_, ?_, ?_⟩
  · intro net cache url v h
    simp [fetchPageContent, h]
  · intro net1 net2 cache url pc cache1 reqs h
    cases hg : cacheGet cache url with
    | some w =>
      simp only [fetchPageContent, hg, Prod.mk.injEq, Except.ok.injEq] at h
      obtain ⟨h1, h2, h3⟩ := h
      subst h1 h2
      simp [fetchPageContent, hg]
    | none =>
      cases hn : net1 url with
      | ok d =>
        simp only [fetchPageContent, hg, hn, Prod.mk.injEq,
          Except.ok.injEq] at h
        obtain ⟨h1, h2, h3⟩ := h
        subst h1 h2
        have hget : cacheGet (cacheSet cache url (mkPageContent url d)) url =
            some (mkPageContent url d) := by
          rw [cacheSet_of_miss cache url _ hg]
          exact cacheGet_append_self cache url _ hg
        simp [fetchPageContent, hget]
      | error msg =>
        simp [fetchPageContent, hg, hn] at h
  · intro net cache url k v h
    cases hg : cacheGet cache url with
    | some w => simpa [fetchPageContent, hg] using h
    | none =>
      cases hn : net url with
      | ok d =>
        simp only [fetchPageContent, hg, hn]
        rw [cacheSet_of_miss cache url _ hg]
        exact cacheGet_append_some cache _ k v h
      | error msg => simpa [fetchPageContent, hg, hn] using h

/-- Witness for C6: after a successful first fetch of the pricing URL, a
second fetch returns the identical record with no network request even though
the network now fails. -/
theorem fetchPageContent_idempotent_witness :
    fetchPageContent netFailEx
        [("https://www.vsf.technology/pricing", pageEx)]
        "https://www.vsf.technology/pricing" =
      (.ok pageEx, [("https://www.vsf.technology/pricing", pageEx)],
        ([] : List String)) :=
  fetchPageContent_idempotent.2.1 netOkEx netFailEx []
    "https://www.vsf.technology/pricing" pageEx
    [("https://www.vsf.technology/pricing", pageEx)]
    ["https://www.vsf.technology/pricing"] rfl

theorem cacheWF_get (cache : ScrapeCache) (k : String) (v : PageContent)
    (hwf : CacheWF cache) (h : cacheGet cache k = some v) : v.url = k :=
  hwf (k, v) (mem_of_cacheGet_some cache k v h)

theorem fetchPageContent_wf (net : String → Except String FetchedDoc)
    (cache : ScrapeCache) (url : String) (hwf : CacheWF cache) :
    CacheWF (fetchPageContent net cache url).2.1 := by
  cases hg : cacheGet cache url with
  | some w => simpa [fetchPageContent, hg] using hwf
  | none =>
    cases hn : net url with
    | ok d =>
      simp only [fetchPageContent, hg, hn]
      rw [cacheSet_of_miss cache url _ hg]
      intro p hp
      rcases List.mem_append.mp hp with hc | hc
      · exact hwf p hc
      · simp only [List.mem_singleton] at hc
        subst hc
        rfl
    | error msg => simpa [fetchPageContent, hg, hn] using hwf

theorem fetchCaught_spec (net : String → Except String FetchedDoc)
    (cache : ScrapeCache) (url : String) (hwf : CacheWF cache) :
    resultUrl (fetchCaught net cache url).1 = url ∧
      CacheWF (fetchCaught net cache url).2.1 := by
  constructor
  · cases hg : cacheGet cache url with
    | some w =>
      have hu : w.url = url := cacheWF_get cache url w hwf hg
      simp [fetchCaught, fetchPageContent, hg, resultUrl, hu]
    | none =>
      cases hn : net url with
      | ok d => simp [fetchCaught, fetchPageContent, hg, hn, resultUrl,
          mkPageContent]
      | error msg => simp [fetchCaught, fetchPageContent, hg, hn, resultUrl]
  · exact fetchPageContent_wf net cache url hwf

theorem fetchSeq_spec (net : String → Except String FetchedDoc) :
    ∀ (urls : List String) (cache : ScrapeCache), CacheWF cache →
      (fetchSeq net urls cache).1.map resultUrl = urls ∧
        CacheWF (fetchSeq net urls cache).2.1 := by
  intro urls
  induction urls with
  | nil => intro cache hwf; exact ⟨rfl, hwf⟩
  | cons u us ih =>
    intro cache hwf
    have h1 := fetchCaught_spec net cache u hwf
    have h2 := ih (fetchCaught net cache u).2.1 h1.2
    simp only [fetchSeq, List.map_cons]
    exact ⟨by rw [h1.1, h2.1], h2.2⟩

theorem fetchMultiplePages_spec (net : String → Except String FetchedDoc) :
    ∀ (n : Nat) (urls : List String) (cache : ScrapeCache) (mc : Nat),
      urls.length ≤ n → CacheWF cache →
      (fetchMultiplePages net urls cache mc).1.map resultUrl = urls ∧
        CacheWF (fetchMultiplePages net urls cache mc).2.1 := by
  intro n
  induction n with
  | zero =>
    intro urls cache mc hlen hwf
    have : urls = [] := List.eq_nil_of_length_eq_zero (Nat.le_zero.mp hlen)
    subst this
    refine ⟨by simp [fetchMultiplePages], ?_⟩
    simpa [fetchMultiplePages] using hwf
  | succ n ih =>
    intro urls cache mc hlen hwf
    cases urls with
    | nil =>
      refine ⟨by simp [fetchMultiplePages], ?_⟩
      simpa [fetchMultiplePages] using hwf
    | cons u us =>
      have hmc : 1 ≤ max mc 1 := Nat.le_max_right mc 1
      have hseq := fetchSeq_spec net ((u :: us).take (max mc 1)) cache hwf
      have hdrop : ((u :: us).drop (max mc 1)).length ≤ n := by
        simp only [List.length_drop]
        simp only [List.length_cons] at hlen ⊢
        omega
      have hrest := ih ((u :: us).drop (max mc 1))
        (fetchSeq net ((u :: us).take (max mc 1)) cache).2.1 mc hdrop hseq.2
      simp only [fetchMultiplePages, List.map_append]
      refine ⟨?_, hrest.2⟩
      rw [hseq.1, hrest.1, List.take_append_drop]

/-- C7: `fetchMany` returns one result per input URL, in input order: the
result list has the same length as the input and, position by position, is
about exactly the input's URL (a fetched `PageContent` whose `url` field is
that URL, or the error record `{url, error}` for that URL); a per-URL
failure never aborts the batch or removes other URLs' results. -/
theorem fetchMultiplePages_preserves_order
    (net : String → Except String FetchedDoc) (urls : List String)
    (cache : ScrapeCache) (mc : Nat) (hwf : CacheWF cache) :
    (fetchMultiplePages net urls cache mc).1.length = urls.length ∧
      (fetchMultiplePages net urls cache mc).1.map resultUrl = urls := by
  have h := fetchMultiplePages_spec net urls.length urls cache mc
    (Nat.le_refl _) hwf
  refine ⟨?_, h.1⟩
  have := congrArg List.length h.1
  simpa using this

/-- Witness for C7: a two-URL batch in which the second fetch fails still
returns both positions, in order. -/
theorem fetchMultiplePages_preserves_order_witness :
    (fetchMultiplePages netMixedEx
        ["https://www.vsf.technology/pricing",
         "https://www.vsf.technology/blog/tips"] [] 3).1.length = 2 ∧
      (fetchMultiplePages netMixedEx
        ["https://www.vsf.technology/pricing",
         "https://www.vsf.technology/blog/tips"] [] 3).1.map resultUrl =
        ["https://www.vsf.technology/pricing",
         "https://www.vsf.technology/blog/tips"] :=
  fetchMultiplePages_preserves_order netMixedEx
    ["https://www.vsf.technology/pricing",
     "https://www.vsf.technology/blog/tips"] [] 3
    (fun p hp => absurd hp (List.not_mem_nil p))

/-- C8: tool dispatch never raises.  Every failure of the `try` block —
including the `Unknown tool` error thrown for a name outside the two known
capabilities — is caught and converted to the structured `{error: message}`
payload, so the conversation can continue. -/
theorem executeToolCall_never_raises (siteUrls : List UrlRecord)
    (net : String → Except String FetchedDoc) (cache : ScrapeCache)
    (toolName : String) (args : ToolArgs) :
    (∀ m, executeToolCallTry siteUrls net cache toolName args = .error m →
      executeToolCall siteUrls net cache toolName args =
        (.errorPayload m, cache)) ∧
    (toolName ≠ "search_website_urls" → toolName ≠ "fetch_webpage_content" →
      executeToolCallTry siteUrls net cache toolName args =
        .error ("Unknown tool: " ++ toolName)) := by
  constructor
  · intro m h
    simp [executeToolCall, h]
  · intro h1 h2
    simp [executeToolCallTry, h1, h2]

/-- Witness for C8: the unknown tool name `"delete_everything"` produces the
error payload instead of an exception. -/
theorem executeToolCall_never_raises_witness :
    executeToolCallTry [] netOkEx [] "delete_everything" {} =
      .error ("Unknown tool: " ++ "delete_everything") ∧
    executeToolCall [] netOkEx [] "delete_everything" {} =
      (.errorPayload ("Unknown tool: " ++ "delete_everything"), []) := by
  have h := executeToolCall_never_raises [] netOkEx [] "delete_everything" {}
  have he := h.2 (by decide) (by decide)
  exact ⟨he, h.1 _ he⟩

theorem callOpenRouterAPI_two_failures (outcomes : Nat → ApiOutcome)
    (h1 : attemptFails (outcomes 1) = true)
    (h2 : attemptFails (outcomes 2) = true) :
    callOpenRouterAPI outcomes 3 =
      (attemptResult (outcomes 3), 3, [1000, 2000]) := by
  unfold callOpenRouterAPI
  unfold attemptFails at h1 h2
  cases hr1 : attemptResult (outcomes 1) with
  | ok d => rw [hr1] at h1; simp at h1
  | error e1 =>
    cases hr2 : attemptResult (outcomes 2) with
    | ok d => rw [hr2] at h2; simp at h2
    | error e2 =>
      cases hr3 : attemptResult (outcomes 3) with
      | ok d => simp [callGo, hr1, hr2, hr3]
      | error e3 => simp [callGo, hr1, hr2, hr3]

/-- C1: when all three attempts fail (timeout, connection error, non-success
status, or malformed response alike), `callOpenRouterAPI` makes exactly 3
attempts, sleeping 1000 ms after the first failure and 2000 ms after the
second (`min(1000·2^(attempt-1), 5000)`), and then raises the final
attempt's failure. -/
theorem callOpenRouterAPI_three_attempts (outcomes : Nat → ApiOutcome)
    (h1 : attemptFails (outcomes 1) = true)
    (h2 : attemptFails (outcomes 2) = true)
    (h3 : attemptFails (outcomes 3) = true) :
    ∃ e, attemptResult (outcomes 3) = .error e ∧
      callOpenRouterAPI outcomes 3 = (.error e, 3, [1000, 2000]) := by
  have h := callOpenRouterAPI_two_failures outcomes h1 h2
  unfold attemptFails at h3
  cases hr3 : attemptResult (outcomes 3) with
  | ok d => rw [hr3] at h3; simp at h3
  | error e3 =>
    refine ⟨e3, rfl, ?_⟩
    rw [h, hr3]

/-- Witness for C1: every attempt times out. -/
theorem callOpenRouterAPI_three_attempts_witness :
    ∃ e, attemptResult
        (ApiOutcome.netError "timeout of 60000ms exceeded") = .error e ∧
      callOpenRouterAPI
          (fun _ => ApiOutcome.netError "timeout of 60000ms exceeded") 3 =
        (.error e, 3, [1000, 2000]) :=
  callOpenRouterAPI_three_attempts
    (fun _ => ApiOutcome.netError "timeout of 60000ms exceeded") rfl rfl rfl

/-- C9 counterexample: a 200 response whose `choices[0]` exists but has no
`message` field is NOT treated as an error — `callOpenRouterAPI` returns it
as a successful response on attempt 1 with no retries and no backoff, because
the validation only checks `data`, `data.choices` and `data.choices[0]`. -/
theorem callOpenRouterAPI_missing_message_counterexample :
    attemptResult (ApiOutcome.response 200 (some missingMessageData)) =
      .ok missingMessageData ∧
    callOpenRouterAPI
        (fun _ => ApiOutcome.response 200 (some missingMessageData)) 3 =
      (.ok missingMessageData, 1, []) := by
  constructor
  · rfl
  · rfl

theorem classifyIter_fail_of_iterFails (oc : Nat → ApiOutcome)
    (h : iterFails oc = true) : classifyIter oc = .fail := by
  unfold iterFails at h
  unfold classifyIter
  cases hr : (callOpenRouterAPI oc 3).1 with
  | ok d => rw [hr] at h; simp at h
  | error e => rfl

theorem runToolCalls_ok (siteUrls : List UrlRecord)
    (net : String → Except String FetchedDoc) :
    ∀ (tcs : List ToolCallReq) (cache : ScrapeCache),
      tcs.all (fun t => t.arguments.isSome) = true →
      ∃ ms, (runToolCalls siteUrls net tcs cache).1 = .ok ms := by
  intro tcs
  induction tcs with
  | nil => intro cache _; exact ⟨[], rfl⟩
  | cons tc rest ih =>
    intro cache hall
    simp only [List.all_cons, Bool.and_eq_true] at hall
    cases ha : tc.arguments with
    | none => rw [ha] at hall; simp at hall
    | some args =>
      obtain ⟨ms, hms⟩ :=
        ih (executeToolCall siteUrls net cache tc.name args).2 hall.2
      simp only [runToolCalls, ha]
      rw [hms]
      exact ⟨_, rfl⟩

theorem chatLoop_all_tools (siteUrls : List UrlRecord)
    (net : String → Except String FetchedDoc)
    (outcomes : Nat → Nat → ApiOutcome) (userMessage : String)
    (history : List ChatMessage) :
    ∀ (fuel iter : Nat) (messages : List ChatMessage) (cache : ScrapeCache),
      (∀ j, j < fuel → iterToolOk (outcomes (iter + j)) = true) →
      (chatLoop siteUrls net outcomes userMessage history messages cache
          iter fuel).1 = maxIterationMessage ∧
      (chatLoop siteUrls net outcomes userMessage history messages cache
          iter fuel).2.1 = history := by
  intro fuel
  induction fuel with
  | zero => intro iter messages cache _; exact ⟨rfl, rfl⟩
  | succ fuel ih =>
    intro iter messages cache h
    have h0 := h 0 (Nat.succ_pos fuel)
    rw [Nat.add_zero] at h0
    unfold iterToolOk at h0
    cases hc : classifyIter (outcomes iter) with
    | fail => rw [hc] at h0; simp at h0
    | final am => rw [hc] at h0; simp at h0
    | tools am tcs =>
      rw [hc] at h0
      obtain ⟨ms, hms⟩ := runToolCalls_ok siteUrls net tcs cache h0
      have hrec := ih (iter + 1) ((messages ++ [am]) ++ ms)
        (runToolCalls siteUrls net tcs cache).2
        (fun j hj => by
          have hh := h (j + 1) (Nat.succ_lt_succ hj)
          rwa [show iter + (j + 1) = iter + 1 + j by omega] at hh)
      simp only [chatLoop, hc]
      rw [hms]
      exact hrec

theorem chatLoop_fail_at (siteUrls : List UrlRecord)
    (net : String → Except String FetchedDoc)
    (outcomes : Nat → Nat → ApiOutcome) (userMessage : String)
    (history : List ChatMessage) :
    ∀ (k fuel iter : Nat) (messages : List ChatMessage) (cache : ScrapeCache),
      k < fuel →
      (∀ j, j < k → iterToolOk (outcomes (iter + j)) = true) →
      classifyIter (outcomes (iter + k)) = IterClass.fail →
      (chatLoop siteUrls net outcomes userMessage history messages cache
          iter fuel).1 = errorMessage ∧
      (chatLoop siteUrls net outcomes userMessage history messages cache
          iter fuel).2.1 = history := by
  intro k
  induction k with
  | zero =>
    intro fuel iter messages cache hk _ hf
    rw [Nat.add_zero] at hf
    have hc := hf
    cases fuel with
    | zero => exact absurd hk (Nat.lt_irrefl 0)
    | succ fuel => simp [chatLoop, hc]
  | succ k ih =>
    intro fuel iter messages cache hk ht hf
    cases fuel with
    | zero => exact absurd hk (Nat.not_lt_zero _)
    | succ fuel =>
      have h0 := ht 0 (Nat.succ_pos k)
      rw [Nat.add_zero] at h0
      unfold iterToolOk at h0
      cases hc : classifyIter (outcomes iter) with
      | fail => rw [hc] at h0; simp at h0
      | final am => rw [hc] at h0; simp at h0
      | tools am tcs =>
        rw [hc] at h0
        obtain ⟨ms, hms⟩ := runToolCalls_ok siteUrls net tcs cache h0
        have hrec := ih fuel (iter + 1) ((messages ++ [am]) ++ ms)
          (runToolCalls siteUrls net tcs cache).2
          (Nat.lt_of_succ_lt_succ hk)
          (fun j hj => by
            have hh := ht (j + 1) (Nat.succ_lt_succ hj)
            rwa [show iter + (j + 1) = iter + 1 + j by omega] at hh)
          (by rwa [show iter + (k + 1) = iter + 1 + k by omega] at hf)
        simp only [chatLoop, hc]
        rw [hms]
        exact hrec

/-- C3: if the model requests tool invocations on each of the 10 iterations
of a turn without ever producing a plain answer, `chat` returns the fixed
taking-too-long message and the stored conversation history is unchanged. -/
theorem chat_iteration_ceiling (siteUrls : List UrlRecord)
    (net : String → Except String FetchedDoc)
    (outcomes : Nat → Nat → ApiOutcome) (history : List ChatMessage)
    (cache : ScrapeCache) (userMessage : String) (systemPrompt : Option String)
    (h : ∀ j, j < 10 → iterToolOk (outcomes j) = true) :
    (chat siteUrls net outcomes history cache userMessage systemPrompt).1 =
      maxIterationMessage ∧
    (chat siteUrls net outcomes history cache userMessage systemPrompt).2.1 =
      history := by
  unfold chat
  exact chatLoop_all_tools siteUrls net outcomes userMessage history 10 0 _
    cache (fun j hj => by simpa using h j hj)

/-- Witness for C3: ten straight tool-call iterations end in the
taking-too-long message with the empty history untouched. -/
theorem chat_iteration_ceiling_witness :
    (chat exampleIndex netOkEx toolLoopOutcomes [] [] "What are your prices?"
        none).1 = maxIterationMessage ∧
    (chat exampleIndex netOkEx toolLoopOutcomes [] [] "What are your prices?"
        none).2.1 = [] :=
  chat_iteration_ceiling exampleIndex netOkEx toolLoopOutcomes [] []
    "What are your prices?" none (by decide)

/-- C2: if some iteration's model call fails after exhausting all retries
(every earlier iteration having requested tools, else the turn would already
have ended), `chat` returns the fixed trouble-processing message and the
stored conversation history is exactly what it was before the turn: prior
turns preserved, the failing turn not appended. -/
theorem chat_failure_preserves_history (siteUrls : List UrlRecord)
    (net : String → Except String FetchedDoc)
    (outcomes : Nat → Nat → ApiOutcome) (history : List ChatMessage)
    (cache : ScrapeCache) (userMessage : String) (systemPrompt : Option String)
    (k : Nat) (hk : k < 10)
    (ht : ∀ j, j < k → iterToolOk (outcomes j) = true)
    (hf : iterFails (outcomes k) = true) :
    (chat siteUrls net outcomes history cache userMessage systemPrompt).1 =
      errorMessage ∧
    (chat siteUrls net outcomes history cache userMessage systemPrompt).2.1 =
      history := by
  unfold chat
  refine chatLoop_fail_at siteUrls net outcomes userMessage history k 10 0 _
    cache hk (fun j hj => by simpa using ht j hj) ?_
  rw [Nat.zero_add]
  exact classifyIter_fail_of_iterFails _ hf

/-- Witness for C2: the first iteration's call fails all three attempts and
the turn returns the trouble-processing message with history untouched. -/
theorem chat_failure_preserves_history_witness :
    (chat exampleIndex netOkEx failingOutcomes [] [] "Hello" none).1 =
      errorMessage ∧
    (chat exampleIndex netOkEx failingOutcomes [] [] "Hello" none).2.1 = [] :=
  chat_failure_preserves_history exampleIndex netOkEx failingOutcomes [] []
    "Hello" none 0 (by decide) (by decide) (by decide)

theorem missingChoice_error (o : ApiOutcome) (h : missingChoice o = true) :
    attemptResult o = .error "Invalid response format from API" := by
  cases o with
  | netError m => simp [missingChoice] at h
  | response status data =>
    have hs : status = 200 := by
      by_contra hne
      simp [missingChoice, hne] at h
    subst hs
    cases data with
    | none => rfl
    | some d =>
      cases hch : d.choices with
      | none => simp [attemptResult, hch]
      | some cs =>
        cases cs with
        | nil => simp [attemptResult, hch]
        | cons c cs' => simp [missingChoice, hch] at h

/-- C9 (amended): responses missing `data`, `data.choices` or
`data.choices[0]` are treated as protocol errors with the same retry
treatment as other failures — three attempts with 1000 ms and 2000 ms
backoff, then the failure is raised.  But a response whose `choices[0]`
exists with no `message` field passes the validation and IS returned to the
orchestrator as a successful response on the first attempt with no retries;
the turn then fails inside `chat`'s handler (trouble-processing message,
history unchanged) without any further model call. -/
theorem callOpenRouterAPI_shape_validation (outcomes : Nat → ApiOutcome)
    (h1 : missingChoice (outcomes 1) = true)
    (h2 : missingChoice (outcomes 2) = true)
    (h3 : missingChoice (outcomes 3) = true)
    (outcomes2 : Nat → Nat → ApiOutcome)
    (hm : ∀ it a, outcomes2 it a =
      ApiOutcome.response 200 (some missingMessageData))
    (siteUrls : List UrlRecord) (net : String → Except String FetchedDoc)
    (history : List ChatMessage) (cache : ScrapeCache) (userMessage : String) :
    callOpenRouterAPI outcomes 3 =
      (.error "Invalid response format from API", 3, [1000, 2000]) ∧
    callOpenRouterAPI (outcomes2 0) 3 = (.ok missingMessageData, 1, []) ∧
    (chat siteUrls net outcomes2 history cache userMessage none).1 =
      errorMessage ∧
    (chat siteUrls net outcomes2 history cache userMessage none).2.1 =
      history := by
  have hf1 : attemptFails (outcomes 1) = true := by
    unfold attemptFails
    rw [missingChoice_error _ h1]
  have hf2 : attemptFails (outcomes 2) = true := by
    unfold attemptFails
    rw [missingChoice_error _ h2]
  have ha : attemptResult (outcomes2 0 1) = .ok missingMessageData := by
    rw [hm 0 1]
    rfl
  have hcall2 : callOpenRouterAPI (outcomes2 0) 3 =
      (.ok missingMessageData, 1, []) := by
    simp [callOpenRouterAPI, callGo, ha]
  have hclass : classifyIter (outcomes2 0) = IterClass.fail := by
    unfold classifyIter
    rw [hcall2]
    rfl
  refine ⟨?_, hcall2, ?_, ?_⟩
  · rw [callOpenRouterAPI_two_failures outcomes hf1 hf2,
      missingChoice_error _ h3]
  · unfold chat
    exact (chatLoop_fail_at siteUrls net outcomes2 userMessage history 0 10 0
      _ cache (by omega) (fun j hj => absurd hj (Nat.not_lt_zero j))
      (by rw [Nat.zero_add]; exact hclass)).1
  · unfold chat
    exact (chatLoop_fail_at siteUrls net outcomes2 userMessage history 0 10 0
      _ cache (by omega) (fun j hj => absurd hj (Nat.not_lt_zero j))
      (by rw [Nat.zero_add]; exact hclass)).2

/-- Witness for the amended C9. -/
theorem callOpenRouterAPI_shape_validation_witness :
    callOpenRouterAPI noChoicesOutcomes 3 =
      (.error "Invalid response format from API", 3, [1000, 2000]) ∧
    callOpenRouterAPI (noMessageOutcomes 0) 3 = (.ok missingMessageData, 1, []) ∧
    (chat exampleIndex netOkEx noMessageOutcomes [] [] "Hello" none).1 =
      errorMessage ∧
    (chat exampleIndex netOkEx noMessageOutcomes [] [] "Hello" none).2.1 =
      ([] : List ChatMessage) :=
  callOpenRouterAPI_shape_validation noChoicesOutcomes rfl rfl rfl
    noMessageOutcomes (fun _ _ => rfl) exampleIndex netOkEx [] [] "Hello"
